import Mathlib

/-!
# Verification of the SeeTree elevation pipeline (`src/elevation.py`)

Shallow embedding of the `Elevation` class. Modelling conventions:

* Python strings are `List Char`; `str.join`/`replace`/f-strings become list
  operations on characters.
* A location record from the input JSON is a `Location` (its `lat`/`lon` are
  the strings produced by Python's `str(...)`, its `"z"` key is the reference
  elevation as an exact rational).
* The network is an oracle `fetch : List Char → PyResponse` mapping a request
  URL to the (already JSON-decoded) response for that URL: a status code plus
  the `results` array, each entry carrying an optional `elevation` field
  (`none` when the field is absent, as `item.get("elevation")` yields `None`).
* Python exceptions (`ValueError` from `range(0, n, 0)`, pandas' length
  mismatch on column assignment, `TypeError` from subscripting `None`) are
  `Except.error` with the corresponding message.
* `float` arithmetic is modelled exactly over `ℚ`; pandas `mean` of a column
  with missing entries skips them (`elevationMean`).  (`listMean []` is `0`
  by rational division-by-zero, where pandas would give `NaN`; no claim
  exercises the empty-mean case.)
-/

namespace Elevation

/-- One entry of the input JSON's `locations` array: coordinate strings (as
rendered by `str(item.get("lat"))` / `str(item.get("lon"))` in
`coords_list`) and the reference elevation `z`. -/
structure Location where
  lat : List Char
  lon : List Char
  z : ℚ
deriving DecidableEq

/-- One entry of a response payload's `results` array: the value of
`item.get("elevation")`, `none` when the field is absent. -/
structure ResultItem where
  elevation : Option ℚ
deriving DecidableEq

/-- A decoded HTTP response: `status_code` and the JSON body's `results`
array. -/
structure PyResponse where
  status_code : ℕ
  results : List ResultItem
deriving DecidableEq

/-- `Elevation.coords_list`: `[(str(item.get("lat")), str(item.get("lon")))
for item in self.locations]`. -/
def coords_list (locations : List Location) : List (List Char × List Char) :=
  locations.map (fun item => (item.lat, item.lon))

/-- `Elevation.coords_string`:
`'|'.join([f"{it[0]}, {it[1]}" for it in coords]).replace(" ", "")`.
`replace(" ", "")` deletes every space character, i.e. filters them out. -/
def coords_string (coords : List (List Char × List Char)) : List Char :=
  (List.intercalate ['|']
    (coords.map (fun it => it.1 ++ [',', ' '] ++ it.2))).filter (fun c => c ≠ ' ')

/-- Fuel-indexed form of the slicing loop shared by
`create_batch_for_polyline` and `batch_coords_to_str`: `for ndx in
range(0, ln, batch_size): yield coords[ndx:min(ndx + batch_size, ln)]`, for
a positive step.  (Python's `range` with a positive step runs while
`ndx < ln`; the slice `coords[ndx:min(ndx+bs, ln)]` is
`(coords.drop ndx).take bs`.)  The structural `fuel` argument only bounds
the number of remaining iterations; any fuel of at least
`coords.length - ndx` produces the loop's full output, since each iteration
advances `ndx` by `bs ≥ 1`. -/
def batchIter (coords : List α) (bs : ℕ) : ℕ → ℕ → List (List α)
  | 0, _ => []
  | fuel + 1, ndx =>
    if ndx < coords.length ∧ 0 < bs then
      (coords.drop ndx).take bs :: batchIter coords bs fuel (ndx + bs)
    else []

/-- The slicing loop, entered at position `ndx` with enough fuel for all
remaining iterations. -/
def batchLoop (coords : List α) (bs ndx : ℕ) : List (List α) :=
  batchIter coords bs (coords.length - ndx) ndx

/-- `range(0, ln, step)` semantics for an arbitrary integer step, as used by
the two batching generators: step `0` raises `ValueError` (when the generator
is first iterated, which `make_coords_strings_list` does immediately, before
any network call); a negative step gives an empty range (`0 > ln` never
holds), so the generator silently yields nothing. -/
def rangeGuard (coords : List α) (batch_size : ℤ) : Except String (List (List α)) :=
  if batch_size = 0 then Except.error "ValueError: range() arg 3 must not be zero"
  else if batch_size < 0 then Except.ok []
  else Except.ok (batchLoop coords batch_size.toNat 0)

/-- `Elevation.create_batch_for_polyline`: yields the raw coordinate-pair
chunks. -/
def create_batch_for_polyline (locations : List Location) (batch_size : ℤ) :
    Except String (List (List (List Char × List Char))) :=
  rangeGuard (coords_list locations) batch_size

/-- `Elevation.batch_coords_to_str`: yields `coords_string` of each chunk. -/
def batch_coords_to_str (locations : List Location) (batch_size : ℤ) :
    Except String (List (List Char)) :=
  (rangeGuard (coords_list locations) batch_size).map (fun chunks => chunks.map coords_string)

/-- `self.google_url`. -/
def google_url : List Char :=
  "https://maps.googleapis.com/maps/api/elevation/json?locations=".data

/-- The URI built in `make_request` / `generate_urls`:
`f"{self.google_url}{coords_str}&key={self.api_key}"`. -/
def request_uri (api_key coords_str : List Char) : List Char :=
  google_url ++ coords_str ++ "&key=".data ++ api_key

/-- `Elevation.make_request`: issue the GET for one coordinate string and
return the response. -/
def make_request (fetch : List Char → PyResponse) (api_key coords_str : List Char) :
    PyResponse :=
  fetch (request_uri api_key coords_str)

/-- `Elevation.generate_urls`. -/
def generate_urls (api_key : List Char) (locations : List Location) (batch_size : ℤ) :
    Except String (List (List Char)) :=
  (batch_coords_to_str locations batch_size).map
    (fun c_strs => c_strs.map (request_uri api_key))

/-- `Elevation.get_elevation_from_request`:
`[item.get("elevation") for item in resp_res["results"]]` (here applied to
the already-extracted `results` array). -/
def get_elevation_from_request (resp_res : List ResultItem) : List (Option ℚ) :=
  resp_res.map (fun item => item.elevation)

/-- `Elevation.get_google_data` (sequential strategy): one request per
coordinate string, in order; a non-200 chunk contributes nothing. -/
def get_google_data (fetch : List Char → PyResponse) (api_key : List Char)
    (locations : List Location) (batch_size : ℤ) : Except String (List (Option ℚ)) :=
  (batch_coords_to_str locations batch_size).map (fun c_strs =>
    c_strs.foldl (fun elevation_list item =>
      let resp := make_request fetch api_key item
      if resp.status_code = 200 then
        elevation_list ++ get_elevation_from_request resp.results
      else elevation_list) [])

/-- `Elevation.make_async_request`: returns the decoded body on status 200
and otherwise falls off the end of the function, i.e. returns `None`. -/
def make_async_request (fetch : List Char → PyResponse) (url : List Char) :
    Option (List ResultItem) :=
  let response := fetch url
  if response.status_code = 200 then some response.results else none

/-- `Elevation.fetch_data`: the value `asyncio.gather` hands back — one
outcome per URL, in the order the URLs were submitted. -/
def fetch_data (fetch : List Char → PyResponse) (urls : List (List Char)) :
    List (Option (List ResultItem)) :=
  urls.map (make_async_request fetch)

/-- Model of `asyncio.gather`'s join: tasks complete in an arbitrary order
(`completions` is the list of `(task index, outcome)` events in completion
order) and each completed outcome is stored in the result slot of its
originating task. -/
def gather_results (n : ℕ) (completions : List (ℕ × α)) : List (Option α) :=
  completions.foldl (fun acc e => acc.set e.1 (some e.2)) (List.replicate n none)

/-- The loop of `Elevation.get_google_data_async` over the gathered
responses: `elevations += self.get_elevation_from_request(item)`. When a
chunk failed, `item` is `None` and `item["results"]` raises `TypeError`. -/
def assemble_async (responses : List (Option (List ResultItem))) :
    Except String (List (Option ℚ)) :=
  responses.foldlM (fun elevations item =>
    match item with
    | some resp_res => Except.ok (elevations ++ get_elevation_from_request resp_res)
    | none => Except.error "TypeError: NoneType object is not subscriptable") []

/-- `Elevation.get_google_data_async`. -/
def get_google_data_async (fetch : List Char → PyResponse) (api_key : List Char)
    (locations : List Location) (batch_size : ℤ) : Except String (List (Option ℚ)) :=
  match generate_urls api_key locations batch_size with
  | Except.error e => Except.error e
  | Except.ok urls => assemble_async (fetch_data fetch urls)

/-- Mean of a list of rationals (pandas `Series.mean` on a complete
column). -/
def listMean (l : List ℚ) : ℚ :=
  l.sum / l.length

/-- pandas `Series.mean` on the elevation column: missing entries are
skipped. -/
def elevationMean (l : List (Option ℚ)) : ℚ :=
  listMean (l.filterMap id)

/-- `Elevation.get_average_elevation`: build the dataframe over
`self.locations`, assign the fetched elevations as a new column — pandas
raises `ValueError: Length of values (…) does not match length of index (…)`
when the list's length differs from the index length (the code's own
docstring records exactly this error) — then return
`df["z"].mean() - df["elevation"].mean()`. -/
def get_average_elevation (fetch : List Char → PyResponse) (api_key : List Char)
    (locations : List Location) (batch_size : ℤ) (asynchronous : Bool) :
    Except String ℚ :=
  match (if asynchronous then get_google_data_async fetch api_key locations batch_size
         else get_google_data fetch api_key locations batch_size) with
  | Except.error e => Except.error e
  | Except.ok elevs =>
    if elevs.length ≠ locations.length then
      Except.error ("ValueError: Length of values (" ++ toString elevs.length ++
        ") does not match length of index (" ++ toString locations.length ++ ")")
    else
      Except.ok (listMean (locations.map Location.z) - elevationMean elevs)

/-- The elevation sequence assembled from an all-success run: per chunk, the
extracted elevations of that chunk's response, concatenated in chunk
order. -/
def assembled_elevations (fetch : List Char → PyResponse) (api_key : List Char)
    (locations : List Location) (bs : ℕ) : List (Option ℚ) :=
  ((batchLoop (coords_list locations) bs 0).map (fun c =>
    get_elevation_from_request (fetch (request_uri api_key (coords_string c))).results)).flatten

/-- Concrete input for small witnesses: five distinct points. -/
def w2Locs : List Location :=
  [⟨['1'], ['6'], 3⟩, ⟨['2'], ['7'], 4⟩, ⟨['3'], ['8'], 5⟩,
   ⟨['4'], ['9'], 6⟩, ⟨['5'], ['0'], 7⟩]

/-- The point of the spec's 250-point example scenario: reference elevation
10. -/
def wPoint : Location := ⟨['1'], ['5'], 10⟩

/-- 250 copies of `wPoint`. -/
def wLocs250 : List Location := List.replicate 250 wPoint

/-- The request URL of a full 100-point chunk of `wPoint`s. -/
def wUrl100 : List Char :=
  request_uri [] (coords_string (coords_list (List.replicate 100 wPoint)))

/-- Service oracle for the example scenario: every chunk succeeds with
elevation 4 per point (100 results for the two full chunks, 50 for the
final one). -/
def wFetch250 : List Char → PyResponse := fun url =>
  if url = wUrl100 then ⟨200, List.replicate 100 ⟨some 4⟩⟩
  else ⟨200, List.replicate 50 ⟨some 4⟩⟩

/-- Two distinct points, for failure-path witnesses. -/
def c5Locs : List Location := [⟨['1'], ['2'], 5⟩, ⟨['3'], ['4'], 7⟩]

/-- Oracle that succeeds on the first one-point chunk of `c5Locs` and
returns status 500 on everything else. -/
def c5Fetch : List Char → PyResponse := fun url =>
  if url = request_uri [] (coords_string [(['1'], ['2'])]) then ⟨200, [⟨some 4⟩]⟩
  else ⟨500, []⟩

/-- A two-point chunk whose coordinate strings carry no whitespace and no
separator character. -/
def c7Coords : List (List Char × List Char) :=
  [(['1', '0'], ['2']), (['3'], ['4'])]

/-- Two request URLs for the gather witness. -/
def c3Urls : List (List Char) := [['a'], ['b']]

/-- Oracle for the gather witness: URL `a` succeeds with an empty results
array, URL `b` fails with status 500. -/
def c3Fetch : List Char → PyResponse := fun url =>
  if url = ['a'] then ⟨200, []⟩ else ⟨500, []⟩

section Theorems

/-- Any two sufficient fuels give the same loop output. -/
lemma batchIter_congr (coords : List α) (bs : ℕ) :
    ∀ fuel1 fuel2 ndx, coords.length - ndx ≤ fuel1 → coords.length - ndx ≤ fuel2 →
      batchIter coords bs fuel1 ndx = batchIter coords bs fuel2 ndx := by
  intro fuel1
  induction fuel1 with
  | zero =>
    intro fuel2 ndx h1 h2
    cases fuel2 with
    | zero => rfl
    | succ m =>
      simp only [batchIter]
      rw [if_neg (by omega)]
  | succ n ih =>
    intro fuel2 ndx h1 h2
    cases fuel2 with
    | zero =>
      simp only [batchIter]
      rw [if_neg (by omega)]
    | succ m =>
      simp only [batchIter]
      by_cases hc : ndx < coords.length ∧ 0 < bs
      · rw [if_pos hc, if_pos hc]
        congr 1
        exact ih m (ndx + bs) (by omega) (by omega)
      · rw [if_neg hc, if_neg hc]

/-- One-step unfolding of `batchLoop`, mirroring one iteration of the
`range` loop. -/
lemma batchLoop_unfold (coords : List α) (bs ndx : ℕ) :
    batchLoop coords bs ndx =
      if ndx < coords.length ∧ 0 < bs then
        (coords.drop ndx).take bs :: batchLoop coords bs (ndx + bs)
      else [] := by
  unfold batchLoop
  by_cases hc : ndx < coords.length ∧ 0 < bs
  · rw [if_pos hc]
    have hm : coords.length - ndx = (coords.length - ndx - 1) + 1 := by omega
    rw [hm]
    simp only [batchIter]
    rw [if_pos hc]
    congr 1
    exact batchIter_congr coords bs _ _ (ndx + bs) (by omega) (by omega)
  · rw [if_neg hc]
    cases hz : coords.length - ndx with
    | zero => rfl
    | succ m =>
      simp only [batchIter]
      rw [if_neg hc]

/-- Fuel-indexed unfolding of `batchLoop`: concatenating the produced chunks
recovers the suffix of `coords` from `ndx` on. -/
lemma batchLoop_flatten_aux (coords : List α) (bs : ℕ) (hbs : 0 < bs) :
    ∀ fuel ndx, coords.length - ndx ≤ fuel →
      (batchLoop coords bs ndx).flatten = coords.drop ndx := by
  intro fuel
  induction fuel with
  | zero =>
    intro ndx h
    rw [batchLoop_unfold]
    have hc : ¬(ndx < coords.length ∧ 0 < bs) := by omega
    rw [if_neg hc]
    rw [List.drop_eq_nil_of_le (by omega)]
    rfl
  | succ n ih =>
    intro ndx h
    rw [batchLoop_unfold]
    by_cases hlt : ndx < coords.length
    · rw [if_pos (And.intro hlt hbs), List.flatten_cons, ih (ndx + bs) (by omega)]
      have hdd : coords.drop (ndx + bs) = (coords.drop ndx).drop bs := by
        rw [List.drop_drop]
      rw [hdd, List.take_append_drop]
    · rw [if_neg (by omega)]
      rw [List.drop_eq_nil_of_le (by omega)]
      rfl

/-- Concatenating all chunks produced by the batching loop recovers the
input list. -/
lemma batchLoop_flatten (coords : List α) (bs : ℕ) (hbs : 0 < bs) :
    (batchLoop coords bs 0).flatten = coords := by
  have h := batchLoop_flatten_aux coords bs hbs (coords.length) 0 (by omega)
  simpa using h

/-- Every chunk the batching loop produces is nonempty and no longer than
the batch size. -/
lemma batchLoop_mem_length (coords : List α) (bs : ℕ) :
    ∀ fuel ndx, coords.length - ndx ≤ fuel →
      ∀ c ∈ batchLoop coords bs ndx, 0 < c.length ∧ c.length ≤ bs := by
  intro fuel
  induction fuel with
  | zero =>
    intro ndx h c hc
    rw [batchLoop_unfold, if_neg (by omega)] at hc
    simp at hc
  | succ n ih =>
    intro ndx h c hc
    rw [batchLoop_unfold] at hc
    by_cases hcond : ndx < coords.length ∧ 0 < bs
    · rw [if_pos hcond] at hc
      rcases List.mem_cons.mp hc with hhead | htail
      · subst hhead
        constructor
        · simp only [List.length_take, List.length_drop]
          omega
        · simp only [List.length_take, List.length_drop]
          omega
      · exact ih (ndx + bs) (by omega) c htail
    · rw [if_neg hcond] at hc
      simp at hc

/-- If the batching loop produces a chunk after the current one, the current
position leaves more than a full batch of elements. -/
lemma batchLoop_ne_nil_iff (coords : List α) (bs ndx : ℕ) :
    batchLoop coords bs ndx ≠ [] ↔ (ndx < coords.length ∧ 0 < bs) := by
  constructor
  · intro h
    by_contra hc
    rw [batchLoop_unfold, if_neg hc] at h
    exact h rfl
  · intro h
    rw [batchLoop_unfold, if_pos h]
    simp

/-- Every chunk except possibly the last has length exactly `bs`. -/
lemma batchLoop_getD_bs (coords : List α) (bs : ℕ) :
    ∀ fuel ndx, coords.length - ndx ≤ fuel →
      ∀ i, i + 1 < (batchLoop coords bs ndx).length →
        ((batchLoop coords bs ndx).getD i []).length = bs := by
  intro fuel
  induction fuel with
  | zero =>
    intro ndx hf i h
    exfalso
    have hnil : batchLoop coords bs ndx = [] := by
      rw [batchLoop_unfold, if_neg (by omega)]
    rw [hnil] at h
    simp at h
  | succ n ih =>
    intro ndx hf i h
    by_cases hc : ndx < coords.length ∧ 0 < bs
    · have hrw : batchLoop coords bs ndx =
          (coords.drop ndx).take bs :: batchLoop coords bs (ndx + bs) := by
        rw [batchLoop_unfold, if_pos hc]
      cases i with
      | zero =>
        have htail : batchLoop coords bs (ndx + bs) ≠ [] := by
          intro hnil
          rw [hrw, hnil] at h
          simp at h
        have hlt2 : ndx + bs < coords.length :=
          ((batchLoop_ne_nil_iff coords bs (ndx + bs)).mp htail).1
        rw [hrw]
        simp only [List.getD_cons_zero, List.length_take, List.length_drop]
        omega
      | succ j =>
        have h2 : j + 1 < (batchLoop coords bs (ndx + bs)).length := by
          rw [hrw] at h
          simpa using h
        rw [hrw]
        simp only [List.getD_cons_succ]
        exact ih (ndx + bs) (by omega) j h2
    · exfalso
      have hnil : batchLoop coords bs ndx = [] := by
        rw [batchLoop_unfold, if_neg hc]
      rw [hnil] at h
      simp at h

/-- C2: for every point sequence and every batch size ≥ 1, concatenating the
chunks produced by the batcher, in order, reproduces the original point
sequence exactly; every chunk has size `bs` except possibly a smaller (but
nonempty) final chunk. -/
theorem batcher_chunks_concat_exact (locations : List Location) (bs : ℕ) (hbs : 1 ≤ bs) :
    ∃ chunks, create_batch_for_polyline locations (bs : ℤ) = Except.ok chunks ∧
      chunks.flatten = coords_list locations ∧
      (∀ i, i + 1 < chunks.length → (chunks.getD i []).length = bs) ∧
      (∀ c ∈ chunks, 0 < c.length ∧ c.length ≤ bs) := by
  refine ⟨batchLoop (coords_list locations) bs 0, ?_, ?_, ?_, ?_⟩
  · unfold create_batch_for_polyline rangeGuard
    rw [if_neg (by omega), if_neg (by omega)]
    simp
  · exact batchLoop_flatten _ bs (by omega)
  · exact batchLoop_getD_bs _ bs (coords_list locations).length 0 (by omega)
  · exact batchLoop_mem_length _ bs (coords_list locations).length 0 (by omega)

/-- Witness for C2 at five points and batch size 2: chunks of sizes 2, 2, 1. -/
theorem batcher_chunks_concat_exact_witness :
    1 ≤ 2 ∧
      ∃ chunks, create_batch_for_polyline w2Locs (2 : ℕ) = Except.ok chunks ∧
        chunks.flatten = coords_list w2Locs ∧
        (∀ i, i + 1 < chunks.length → (chunks.getD i []).length = 2) ∧
        (∀ c ∈ chunks, 0 < c.length ∧ c.length ≤ 2) :=
  ⟨by decide, batcher_chunks_concat_exact w2Locs 2 (by decide)⟩

/-- For a positive batch size nothing is raised: `batch_coords_to_str`
yields the rendered chunks. -/
lemma batch_coords_to_str_ok (locations : List Location) (bs : ℕ) (hbs : 1 ≤ bs) :
    batch_coords_to_str locations (bs : ℤ) =
      Except.ok ((batchLoop (coords_list locations) bs 0).map coords_string) := by
  unfold batch_coords_to_str rangeGuard
  rw [if_neg (by omega), if_neg (by omega)]
  simp [Except.map]

/-- The accumulator loop of `get_google_data`, rewritten as a flat
concatenation over the processed chunk strings. -/
lemma get_google_data_foldl (fetch : List Char → PyResponse) (api_key : List Char) :
    ∀ (c_strs : List (List Char)) (acc : List (Option ℚ)),
      c_strs.foldl (fun elevation_list item =>
        let resp := make_request fetch api_key item
        if resp.status_code = 200 then
          elevation_list ++ get_elevation_from_request resp.results
        else elevation_list) acc
      = acc ++ (c_strs.map (fun item =>
          if (make_request fetch api_key item).status_code = 200 then
            get_elevation_from_request (make_request fetch api_key item).results
          else [])).flatten := by
  intro c_strs
  induction c_strs with
  | nil =>
    intro acc
    simp
  | cons s rest ih =>
    intro acc
    rw [List.foldl_cons, List.map_cons, List.flatten_cons]
    by_cases hs : (make_request fetch api_key s).status_code = 200
    · simp only [hs, if_true, ih, List.append_assoc]
    · simp only [hs, if_false, ih, List.nil_append]

/-- `get_google_data` never raises for a positive batch size: it returns the
concatenated per-chunk contributions (empty for a failed chunk). -/
lemma get_google_data_ok (fetch : List Char → PyResponse) (api_key : List Char)
    (locations : List Location) (bs : ℕ) (hbs : 1 ≤ bs) :
    get_google_data fetch api_key locations (bs : ℤ) =
      Except.ok ((((batchLoop (coords_list locations) bs 0).map coords_string).map
        (fun item =>
          if (make_request fetch api_key item).status_code = 200 then
            get_elevation_from_request (make_request fetch api_key item).results
          else [])).flatten) := by
  unfold get_google_data
  rw [batch_coords_to_str_ok locations bs hbs]
  simp only [Except.map]
  rw [get_google_data_foldl]
  rw [List.nil_append]

/-- Dropping the `else []` branches of a guarded flat-map is the same as
filtering first. -/
lemma flatten_map_ite {β γ : Type} (p : β → Prop) [DecidablePred p] (h : β → List γ)
    (l : List β) :
    (l.map (fun b => if p b then h b else [])).flatten =
      ((l.filter (fun b => decide (p b))).map h).flatten := by
  induction l with
  | nil => rfl
  | cons b rest ih =>
    by_cases hb : p b
    · simp [hb, ih]
    · simp [hb, ih]

/-- C6: in sequential mode the fetcher surfaces no error; every non-200
chunk contributes nothing, and the result is the concatenation, in chunk
order, of the elevation arrays extracted from the successful chunks. -/
theorem sequential_fetch_drops_failed_chunks (fetch : List Char → PyResponse)
    (api_key : List Char) (locations : List Location) (bs : ℕ) (hbs : 1 ≤ bs) :
    get_google_data fetch api_key locations (bs : ℤ) =
      Except.ok (((((batchLoop (coords_list locations) bs 0).map coords_string).filter
        (fun s => decide ((make_request fetch api_key s).status_code = 200))).map
        (fun s => get_elevation_from_request (make_request fetch api_key s).results)).flatten) := by
  rw [get_google_data_ok fetch api_key locations bs hbs]
  rw [flatten_map_ite (fun s => (make_request fetch api_key s).status_code = 200)]

/-- Witness for C6: two one-point chunks, the second failing with status
500; the result is the first chunk's single elevation, with no error. -/
theorem sequential_fetch_drops_failed_chunks_witness :
    1 ≤ 1 ∧
      get_google_data c5Fetch [] c5Locs ((1 : ℕ) : ℤ) =
        Except.ok (((((batchLoop (coords_list c5Locs) 1 0).map coords_string).filter
          (fun s => decide ((make_request c5Fetch [] s).status_code = 200))).map
          (fun s => get_elevation_from_request (make_request c5Fetch [] s).results)).flatten) :=
  ⟨by decide, sequential_fetch_drops_failed_chunks c5Fetch [] c5Locs 1 (by decide)⟩

/-- When the fetch stage returns a list whose length matches the point
count, the aggregation returns the difference of the means. -/
lemma get_average_elevation_of_ok (fetch : List Char → PyResponse) (api_key : List Char)
    (locations : List Location) (bs : ℤ) (asynchronous : Bool) (elevs : List (Option ℚ))
    (hfetch : (if asynchronous then get_google_data_async fetch api_key locations bs
               else get_google_data fetch api_key locations bs) = Except.ok elevs)
    (hlen : elevs.length = locations.length) :
    get_average_elevation fetch api_key locations bs asynchronous =
      Except.ok (listMean (locations.map Location.z) - elevationMean elevs) := by
  unfold get_average_elevation
  simp only [hfetch]
  rw [if_neg (by omega)]

/-- C1: if every chunk's request succeeds — status 200 with one result per
submitted point — the assembled elevation sequence is exactly one entry per
point and `get_average_elevation` returns
`mean(reference) - mean(elevation)` exactly. -/
theorem all_success_aggregate (fetch : List Char → PyResponse) (api_key : List Char)
    (locations : List Location) (bs : ℕ) (hbs : 1 ≤ bs)
    (hsucc : ∀ c ∈ batchLoop (coords_list locations) bs 0,
      (fetch (request_uri api_key (coords_string c))).status_code = 200 ∧
      (fetch (request_uri api_key (coords_string c))).results.length = c.length) :
    get_google_data fetch api_key locations (bs : ℤ) =
      Except.ok (assembled_elevations fetch api_key locations bs) ∧
    (assembled_elevations fetch api_key locations bs).length = locations.length ∧
    get_average_elevation fetch api_key locations (bs : ℤ) false =
      Except.ok (listMean (locations.map Location.z) -
        elevationMean (assembled_elevations fetch api_key locations bs)) := by
  have h1 : get_google_data fetch api_key locations (bs : ℤ) =
      Except.ok (assembled_elevations fetch api_key locations bs) := by
    rw [get_google_data_ok fetch api_key locations bs hbs]
    unfold assembled_elevations
    rw [List.map_map]
    congr 1
    apply congrArg
    apply List.map_congr_left
    intro c hc
    simp only [Function.comp_apply, make_request]
    rw [if_pos (hsucc c hc).1]
  have h2 : (assembled_elevations fetch api_key locations bs).length = locations.length := by
    unfold assembled_elevations
    rw [List.length_flatten, List.map_map]
    have hmap : (batchLoop (coords_list locations) bs 0).map
        (List.length ∘ fun c =>
          get_elevation_from_request (fetch (request_uri api_key (coords_string c))).results)
        = (batchLoop (coords_list locations) bs 0).map List.length := by
      apply List.map_congr_left
      intro c hc
      simp only [Function.comp_apply, get_elevation_from_request, List.length_map]
      exact (hsucc c hc).2
    rw [hmap, ← List.length_flatten, batchLoop_flatten _ bs (by omega)]
    simp [coords_list]
  refine ⟨h1, h2, ?_⟩
  apply get_average_elevation_of_ok fetch api_key locations (bs : ℤ) false _ _ h2
  rw [if_neg Bool.false_ne_true]
  exact h1

set_option maxRecDepth 100000 in
/-- Witness for C1, the spec's example scenario: 250 points with reference
10, batch size 100, all chunks succeed with elevation 4 → the result is
exactly 6. -/
theorem all_success_aggregate_witness :
    (1 ≤ 100 ∧
      ∀ c ∈ batchLoop (coords_list wLocs250) 100 0,
        (wFetch250 (request_uri [] (coords_string c))).status_code = 200 ∧
        (wFetch250 (request_uri [] (coords_string c))).results.length = c.length) ∧
    (assembled_elevations wFetch250 [] wLocs250 100).length = wLocs250.length ∧
    get_average_elevation wFetch250 [] wLocs250 ((100 : ℕ) : ℤ) false = Except.ok 6 := by
  have h := all_success_aggregate wFetch250 [] wLocs250 100 (by decide) (by decide)
  refine ⟨⟨by decide, by decide⟩, h.2.1, ?_⟩
  rw [h.2.2]
  have e1 : wLocs250.map Location.z = List.replicate 250 (10 : ℚ) := rfl
  have e2 : assembled_elevations wFetch250 [] wLocs250 100 =
      List.replicate 250 (some (4 : ℚ)) := rfl
  have e3 : (List.replicate 250 (some (4 : ℚ))).filterMap id =
      List.replicate 250 (4 : ℚ) := rfl
  rw [e1, e2]
  unfold elevationMean
  rw [e3]
  unfold listMean
  simp only [Except.ok.injEq, List.sum_replicate, List.length_replicate, nsmul_eq_mul]
  norm_num

/-- C5: whenever the fetch stage hands the aggregation an elevation list
whose length differs from the point count, the pandas column assignment
raises the explicit length-mismatch `ValueError` naming actual versus
expected counts; no numeric aggregate is returned. -/
theorem mismatch_raises_length_error (fetch : List Char → PyResponse) (api_key : List Char)
    (locations : List Location) (bs : ℤ) (asynchronous : Bool) (elevs : List (Option ℚ))
    (hfetch : (if asynchronous then get_google_data_async fetch api_key locations bs
               else get_google_data fetch api_key locations bs) = Except.ok elevs)
    (hne : elevs.length ≠ locations.length) :
    get_average_elevation fetch api_key locations bs asynchronous =
      Except.error ("ValueError: Length of values (" ++ toString elevs.length ++
        ") does not match length of index (" ++ toString locations.length ++ ")") := by
  unfold get_average_elevation
  simp only [hfetch]
  rw [if_pos hne]

/-- Witness for C5: two points, batch size 1, second chunk fails → one
assembled value against two points, and the error names 1 versus 2. -/
theorem mismatch_raises_length_error_witness :
    ((if false then get_google_data_async c5Fetch [] c5Locs 1
      else get_google_data c5Fetch [] c5Locs 1) = Except.ok [some 4] ∧
      (1 : ℕ) ≠ 2) ∧
    get_average_elevation c5Fetch [] c5Locs 1 false =
      Except.error "ValueError: Length of values (1) does not match length of index (2)" := by
  refine ⟨⟨?_, by decide⟩, ?_⟩
  · rw [if_neg Bool.false_ne_true]
    rfl
  · rw [mismatch_raises_length_error c5Fetch [] c5Locs 1 false [some 4]
      (by rw [if_neg Bool.false_ne_true]; rfl) (by decide)]
    rfl

/-- C10: an empty point sequence yields zero chunks for every batch size
≥ 1, and the sequential fetcher returns an empty elevation list whatever
the network oracle would answer (no request is consulted). -/
theorem empty_input_no_requests (bs : ℕ) (hbs : 1 ≤ bs)
    (fetch : List Char → PyResponse) (api_key : List Char) :
    batch_coords_to_str [] (bs : ℤ) = Except.ok [] ∧
    get_google_data fetch api_key [] (bs : ℤ) = Except.ok [] := by
  have hnil : batchLoop (coords_list ([] : List Location)) bs 0 = [] := by
    rw [batchLoop_unfold, if_neg]
    simp [coords_list]
  constructor
  · rw [batch_coords_to_str_ok [] bs hbs, hnil]
    rfl
  · rw [get_google_data_ok fetch api_key [] bs hbs, hnil]
    rfl

/-- Witness for C10 at batch size 1 and an oracle that would fail every
request. -/
theorem empty_input_no_requests_witness :
    1 ≤ 1 ∧
      (batch_coords_to_str [] ((1 : ℕ) : ℤ) = Except.ok [] ∧
        get_google_data (fun _ => PyResponse.mk 500 []) [] [] ((1 : ℕ) : ℤ) = Except.ok []) :=
  ⟨by decide, empty_input_no_requests 1 (by decide) (fun _ => PyResponse.mk 500 []) []⟩

/-- C9: `get_elevation_from_request` returns one entry per element of the
`results` array, in order: the i-th output is the i-th item's `elevation`
field (`none` when absent). -/
theorem extraction_preserves_results_order (resp_res : List ResultItem) (i : ℕ) :
    (get_elevation_from_request resp_res).length = resp_res.length ∧
    (get_elevation_from_request resp_res)[i]? =
      (resp_res[i]?).map (fun item => item.elevation) := by
  constructor
  · simp [get_elevation_from_request]
  · simp [get_elevation_from_request]

/-- C8 counterexample: with a negative batch size and a nonempty point list,
the batcher raises nothing at all — it silently yields zero chunks, and the
sequential fetcher then runs without error and issues no request. -/
theorem negative_batch_size_not_rejected :
    batch_coords_to_str c5Locs (-1) = Except.ok [] ∧
    get_google_data c5Fetch [] c5Locs (-1) = Except.ok [] := by
  constructor <;> rfl

/-- C8 as amended: batch size `0` raises the `range` `ValueError` (before
any network request, since the generator is drained before the request
loop), but a negative batch size is accepted silently and yields zero
chunks. -/
theorem batch_size_zero_raises (locations : List Location) :
    batch_coords_to_str locations 0 =
      Except.error "ValueError: range() arg 3 must not be zero" ∧
    ∀ bs : ℤ, bs < 0 → batch_coords_to_str locations bs = Except.ok [] := by
  constructor
  · rfl
  · intro bs hbs
    unfold batch_coords_to_str rangeGuard
    rw [if_neg (by omega), if_pos hbs]
    rfl

/-- Witness for the amended C8 at batch sizes `0` and `-1`. -/
theorem batch_size_zero_raises_witness :
    (batch_coords_to_str c5Locs 0 =
      Except.error "ValueError: range() arg 3 must not be zero") ∧
    ((-1 : ℤ) < 0 ∧ batch_coords_to_str c5Locs (-1) = Except.ok []) :=
  ⟨(batch_size_zero_raises c5Locs).1,
   by decide, (batch_size_zero_raises c5Locs).2 (-1) (by decide)⟩

/-- C4 (code bug): with two one-point chunks where the second request
returns status 500, `asyncio.gather` does deliver per-item outcomes in
order — the failed unit does not abort its sibling — but the consuming loop
of `get_google_data_async` subscripts the `None` outcome
(`item["results"]`), raising `TypeError` and crashing the whole batch. -/
theorem async_failed_chunk_crashes_batch :
    (generate_urls [] c5Locs 1).map (fun urls => fetch_data c5Fetch urls) =
      Except.ok [some [⟨some 4⟩], none] ∧
    get_google_data_async c5Fetch [] c5Locs 1 =
      Except.error "TypeError: NoneType object is not subscriptable" := by
  constructor <;> rfl

/-- `intercalate` on a singleton. -/
lemma intercalate_one (sep x : List α) : List.intercalate sep [x] = x := by
  simp [List.intercalate]

/-- `intercalate` peels off the first group and one separator. -/
lemma intercalate_two (sep x y : List α) (ys : List (List α)) :
    List.intercalate sep (x :: y :: ys) = x ++ sep ++ List.intercalate sep (y :: ys) := by
  simp [List.intercalate, List.intersperse_cons_cons, List.append_assoc]

/-- Filtering commutes with `intercalate` when the separator survives the
filter untouched. -/
lemma filter_intercalate (p : α → Bool) (sep : List α) (hsep : sep.filter p = sep) :
    ∀ l : List (List α),
      (List.intercalate sep l).filter p = List.intercalate sep (l.map (List.filter p)) := by
  intro l
  induction l with
  | nil => rfl
  | cons x xs ih =>
    cases xs with
    | nil => simp [intercalate_one]
    | cons y ys =>
      rw [intercalate_two, List.filter_append, List.filter_append, hsep, ih]
      simp [intercalate_two]

/-- An element of an interspersed list is the separator or from the original
list. -/
lemma mem_intersperse {sep x : α} :
    ∀ {l : List α}, x ∈ l.intersperse sep → x = sep ∨ x ∈ l := by
  intro l
  induction l with
  | nil =>
    intro h
    simp [List.intersperse] at h
  | cons a t ih =>
    cases t with
    | nil =>
      intro h
      simp [List.intersperse] at h
      simp [h]
    | cons b t2 =>
      intro h
      rw [List.intersperse_cons_cons] at h
      rcases List.mem_cons.mp h with h1 | h'
      · right
        simp [h1]
      · rcases List.mem_cons.mp h' with h2 | h3
        · left
          exact h2
        · rcases ih h3 with hs | hm
          · left
            exact hs
          · right
            exact List.mem_cons_of_mem a hm

/-- C7: rendering a chunk of whitespace-free, separator-free coordinate
strings emits exactly one `|`-separated group per point, in point order —
the i-th group is `lat_i ++ "," ++ lon_i` — and the rendered string contains
no whitespace character. -/
theorem chunk_rendering_format (coords : List (List Char × List Char))
    (hne : coords ≠ [])
    (hgood : ∀ p ∈ coords,
      (∀ ch ∈ p.1, ch.isWhitespace = false ∧ ch ≠ '|') ∧
      (∀ ch ∈ p.2, ch.isWhitespace = false ∧ ch ≠ '|')) :
    (coords_string coords).splitOn '|' =
      coords.map (fun p => p.1 ++ [','] ++ p.2) ∧
    ∀ ch ∈ coords_string coords, ch.isWhitespace = false := by
  have hsep : (['|'] : List Char).filter (fun c => decide (c ≠ ' ')) = ['|'] := by decide
  have hparts : (coords.map (fun it => it.1 ++ [',', ' '] ++ it.2)).map
      (List.filter (fun c => decide (c ≠ ' '))) =
      coords.map (fun p => p.1 ++ [','] ++ p.2) := by
    rw [List.map_map]
    apply List.map_congr_left
    intro p hp
    have h1 : p.1.filter (fun c => decide (c ≠ ' ')) = p.1 := by
      rw [List.filter_eq_self]
      intro a ha
      have := ((hgood p hp).1 a ha).1
      simp only [decide_eq_true_eq]
      intro heq
      rw [heq] at this
      simp at this
    have h2 : p.2.filter (fun c => decide (c ≠ ' ')) = p.2 := by
      rw [List.filter_eq_self]
      intro a ha
      have := ((hgood p hp).2 a ha).1
      simp only [decide_eq_true_eq]
      intro heq
      rw [heq] at this
      simp at this
    simp only [Function.comp_apply, List.filter_append, h1, h2]
    rfl
  have hrw : coords_string coords =
      List.intercalate ['|'] (coords.map (fun p => p.1 ++ [','] ++ p.2)) := by
    unfold coords_string
    rw [filter_intercalate _ _ hsep, hparts]
  constructor
  · rw [hrw]
    apply List.splitOn_intercalate
    · intro l hl
      rcases List.mem_map.mp hl with ⟨p, hp, hpl⟩
      rw [← hpl]
      intro hmem
      rcases List.mem_append.mp hmem with hmem1 | hmem2
      · rcases List.mem_append.mp hmem1 with hmem1a | hmem1b
        · exact (((hgood p hp).1 _ hmem1a).2) rfl
        · simp at hmem1b
      · exact (((hgood p hp).2 _ hmem2).2) rfl
    · intro hnil
      exact hne (List.map_eq_nil_iff.mp hnil)
  · intro ch hch
    rw [hrw] at hch
    unfold List.intercalate at hch
    rcases List.mem_flatten.mp hch with ⟨part, hpart, hchpart⟩
    rcases mem_intersperse hpart with hs | hm
    · rw [hs] at hchpart
      simp at hchpart
      rw [hchpart]
      rfl
    · rcases List.mem_map.mp hm with ⟨p, hp, hpl⟩
      rw [← hpl] at hchpart
      rcases List.mem_append.mp hchpart with h1 | h2
      · rcases List.mem_append.mp h1 with h1a | h1b
        · exact ((hgood p hp).1 _ h1a).1
        · simp at h1b
          rw [h1b]
          rfl
      · exact ((hgood p hp).2 _ h2).1

/-- Witness for C7: the two-point chunk renders to `10,2|3,4`. -/
theorem chunk_rendering_format_witness :
    (c7Coords ≠ [] ∧
      ∀ p ∈ c7Coords,
        (∀ ch ∈ p.1, ch.isWhitespace = false ∧ ch ≠ '|') ∧
        (∀ ch ∈ p.2, ch.isWhitespace = false ∧ ch ≠ '|')) ∧
    ((coords_string c7Coords).splitOn '|' =
      c7Coords.map (fun p => p.1 ++ [','] ++ p.2) ∧
    ∀ ch ∈ coords_string c7Coords, ch.isWhitespace = false) :=
  ⟨⟨by decide, by decide⟩, chunk_rendering_format c7Coords (by decide) (by decide)⟩

/-- Slots whose index never completes keep their initial value. -/
lemma foldl_set_not_mem {β : Type} (completions : List (ℕ × β)) :
    ∀ (init : List (Option β)) (j : ℕ), (∀ v, (j, v) ∉ completions) →
      (completions.foldl (fun acc e => acc.set e.1 (some e.2)) init)[j]? = init[j]? := by
  induction completions with
  | nil =>
    intro init j _
    rfl
  | cons e rest ih =>
    intro init j h
    obtain ⟨i, v⟩ := e
    rw [List.foldl_cons, ih _ j (fun w hw => h w (List.mem_cons_of_mem _ hw))]
    apply List.getElem?_set_ne
    intro heq
    subst heq
    exact h v (List.mem_cons_self (i, v) rest)

/-- A slot whose index completes (with the outcome the reference list
dictates) ends up holding exactly that outcome. -/
lemma foldl_set_mem {β : Type} (l : List β) :
    ∀ (completions : List (ℕ × β)) (init : List (Option β)) (j : ℕ),
      (∀ p ∈ completions, l[p.1]? = some p.2) →
      init.length = l.length →
      (∃ v, (j, v) ∈ completions) →
      (completions.foldl (fun acc e => acc.set e.1 (some e.2)) init)[j]? =
        (l[j]?).map some := by
  intro completions
  induction completions with
  | nil =>
    intro init j _ _ hex
    rcases hex with ⟨v, hv⟩
    simp at hv
  | cons e rest ih =>
    intro init j hc hlen hex
    rw [List.foldl_cons]
    by_cases hrest : ∃ v, (j, v) ∈ rest
    · exact ih _ j (fun p hp => hc p (List.mem_cons_of_mem e hp))
        (by rw [List.length_set]; exact hlen) hrest
    · rcases hex with ⟨v, hv⟩
      rcases List.mem_cons.mp hv with heq | hmem
      · have hnot : ∀ v', (j, v') ∉ rest := fun v' hv' => hrest ⟨v', hv'⟩
        rw [foldl_set_not_mem rest _ j hnot, ← heq]
        have hl : l[j]? = some v := by
          have := hc e (List.mem_cons_self e rest)
          rw [← heq] at this
          exact this
        have hjlt : j < init.length := by
          rw [hlen]
          exact (List.getElem?_eq_some.mp hl).1
        rw [List.getElem?_set_eq_of_lt _ hjlt, hl]
        rfl
      · exact absurd ⟨v, hmem⟩ hrest

/-- `gather_results` over any permutation of the completion events of a
reference outcome list reconstructs the outcome list in input order. -/
lemma gather_results_perm {β : Type} (l : List β) (completions : List (ℕ × β))
    (h : completions.Perm l.enum) :
    gather_results l.length completions = l.map some := by
  have hc : ∀ p ∈ completions, l[p.1]? = some p.2 := by
    intro p hp
    exact List.mem_enum_iff_getElem?.mp (h.mem_iff.mp hp)
  apply List.ext_getElem?
  intro j
  by_cases hj : j < l.length
  · have hex : ∃ v, (j, v) ∈ completions := by
      refine ⟨l.get ⟨j, hj⟩, h.mem_iff.mpr ?_⟩
      rw [List.mem_enum_iff_getElem?]
      simp [hj]
    rw [gather_results, foldl_set_mem l completions _ j hc (by simp) hex,
      List.getElem?_map]
  · have hnot : ∀ v, (j, v) ∉ completions := by
      intro v hv
      have := List.mem_enum_iff_getElem?.mp (h.mem_iff.mp hv)
      rw [List.getElem?_eq_none (by omega)] at this
      cases this
    rw [gather_results, foldl_set_not_mem completions _ j hnot,
      List.getElem?_map]
    rw [List.getElem?_eq_none (by simp; omega), List.getElem?_eq_none (by omega)]
    rfl

/-- C3: whatever order the concurrent calls complete in — any permutation
of the per-task completion events — the gathered result list holds, at
position i, the outcome of the i-th request descriptor of the input list. -/
theorem gather_preserves_descriptor_order (fetch : List Char → PyResponse)
    (urls : List (List Char)) (completions : List (ℕ × Option (List ResultItem)))
    (hperm : completions.Perm (fetch_data fetch urls).enum) :
    gather_results urls.length completions = (fetch_data fetch urls).map some := by
  have h := gather_results_perm (fetch_data fetch urls) completions hperm
  rw [show (fetch_data fetch urls).length = urls.length by simp [fetch_data]] at h
  exact h

/-- Witness for C3: two descriptors, completions arriving in reversed
order; the gathered list still pairs slot 0 with URL `a`'s outcome and slot
1 with URL `b`'s failure. -/
theorem gather_preserves_descriptor_order_witness :
    ([((1 : ℕ), (none : Option (List ResultItem))), (0, some [])]).Perm
      (fetch_data c3Fetch c3Urls).enum ∧
    gather_results c3Urls.length [((1 : ℕ), (none : Option (List ResultItem))), (0, some [])] =
      (fetch_data c3Fetch c3Urls).map some :=
  ⟨by decide,
   gather_preserves_descriptor_order c3Fetch c3Urls
     [((1 : ℕ), (none : Option (List ResultItem))), (0, some [])] (by decide)⟩

end Theorems

end Elevation
